import Mathlib

/-!
Verification of the Roadbyte Racer track-streaming and navigation subsystem
(`4a_Racing_RoadbyteRacer`): the track codec (`generator/trackgen.py`,
`solution/Loader.py`), the simulation engine (`solution/Engine.py`,
`student/Engine.py`) and the lookahead planner (`solution/AI.py`).

The Python sources are shallowly embedded: byte strings become `List Nat`
(each entry one byte value), rows become `List Char`, machine integers are
`Nat`/`Int` with explicit `% 2 ^ 32` where Python masks with `0xFFFFFFFF`,
and code that can raise returns `Except`.  The two external library
primitives used by the codec — zlib (`compress`/`decompress`) and the
Mersenne-Twister generator backing `random.Random(key).getrandbits(32)` —
are not part of the repository; they are taken as parameters
(`compress`, `decompress`, `prng`), with zlib's round-trip contract
(`decompress (compress l) = some l`) as an explicit hypothesis where a
theorem needs it.  Everything the repository itself computes (key
derivation, keystream byte order, XOR layout, header, width inference,
row splitting, engine loop, planner search) is translated directly.
-/

set_option autoImplicit false

namespace Roadbyte

/-! ### Track codec

`trackgen.py` constants `_A`, `_B` (shared with `Loader.py`). -/

/-- `_A = 0x51A ^ 0x1` from `trackgen.py` / `Loader.py`. -/
def saltA : Nat := 0x51A ^^^ 0x1

/-- `_B = (0xDEAD << 1) ^ 0xBEEF` from `trackgen.py` / `Loader.py`. -/
def saltB : Nat := (0xDEAD <<< 1) ^^^ 0xBEEF

/-- `_seed_key`: `(seed ^ _A ^ crc32(filename) ^ _B) & 0xFFFFFFFF`.
`crcFilename` stands for the (already masked) CRC32 of the file name. -/
def seed_key (seed crcFilename : Nat) : Nat :=
  (seed ^^^ saltA ^^^ crcFilename ^^^ saltB) % 2 ^ 32

/-- Byte `i` of a 32-bit word laid out little-endian
(`n.to_bytes(4, "little")`). -/
def wordByte (w i : Nat) : Nat := (w >>> (8 * i)) % 256

/-- Byte `j` of the keystream: the generator emits 32-bit words
(`getrandbits(32)`), each contributing its 4 bytes little-endian.
`prng key i` stands for the `i`-th word drawn from `random.Random(key)`. -/
def ksByte (prng : Nat → Nat → Nat) (key j : Nat) : Nat :=
  wordByte (prng key (j / 4)) (j % 4)

/-- XOR a byte list against the keystream, starting at keystream offset `j`. -/
def xorKs (prng : Nat → Nat → Nat) (key : Nat) : Nat → List Nat → List Nat
  | _, [] => []
  | j, b :: bs => (b ^^^ ksByte prng key j) :: xorKs prng key (j + 1) bs

/-- `len(payload).to_bytes(4, "little")`. -/
def toBytesLE4 (n : Nat) : List Nat :=
  [n % 256, n / 2 ^ 8 % 256, n / 2 ^ 16 % 256, n / 2 ^ 24 % 256]

/-- `int.from_bytes(bs, "little")` for a list of byte values. -/
def fromBytesLE : List Nat → Nat
  | [] => 0
  | b :: bs => b + 256 * fromBytesLE bs

/-- `trackgen.encrypt_trk_bytes`: concatenate the rows into an ASCII
payload, compress, then XOR the 4-byte little-endian length header and the
compressed body against the keystream derived from `(seed, filename)`. -/
def encrypt_trk_bytes (compress : List Nat → List Nat) (prng : Nat → Nat → Nat)
    (rows : List (List Char)) (seed crcFilename : Nat) : List Nat :=
  let payload : List Nat := (rows.flatten).map Char.toNat
  let comp := compress payload
  xorKs prng (seed_key seed crcFilename) 0 (toBytesLE4 payload.length ++ comp)

/-- `Loader._infer_default_width`: first width in `(10, 13, 16)` dividing
the payload size, else `none`. -/
def infer_default_width (totalBytes : Nat) : Option Nat :=
  if totalBytes % 10 = 0 then some 10
  else if totalBytes % 13 = 0 then some 13
  else if totalBytes % 16 = 0 then some 16
  else none

/-- Python's `a or b` on `Optional[int]` values: `b` when `a` is `None`
or the falsy width `0`. -/
def widthOr : Option Nat → Option Nat → Option Nat
  | some w, alt => if w = 0 then alt else some w
  | none, alt => alt

/-- Fuelled splitting of a flat payload into consecutive `width`-byte
chunks (`raw[i : i + width]` for `i in range(0, len(raw), width)`).
The fuel is an upper bound on the number of chunks; `chunks` below
instantiates it with the list length, which is enough whenever
`0 < width`. -/
def chunksGo (width : Nat) : Nat → List Nat → List (List Nat)
  | 0, _ => []
  | _, [] => []
  | fuel + 1, l => l.take width :: chunksGo width fuel (l.drop width)

/-- Split a flat payload into consecutive `width`-sized chunks. -/
def chunks (width : Nat) (l : List Nat) : List (List Nat) := chunksGo width l.length l

/-- Width resolution and row splitting at the end of
`Loader._stream_from_encrypted`: `width = neighbor or default`, the
`width is None or len(raw) % width != 0` check, and the per-chunk ASCII
decode of the yielded rows. -/
def widthStage (neighborWidth : Option Nat) (raw : List Nat) :
    Except String (List (List Char)) :=
  match widthOr neighborWidth (infer_default_width raw.length) with
  | none => Except.error "Unable to infer row width from encrypted payload size."
  | some width =>
    if raw.length % width ≠ 0 then
      Except.error "Unable to infer row width from encrypted payload size."
    else if raw.all (fun b => b < 128) then
      Except.ok ((chunks width raw).map (fun chunk => chunk.map Char.ofNat))
    else Except.error "ascii decode failed"

/-- `Loader._stream_from_encrypted`, materialised as a list of rows:
XOR the 4-byte header to recover the declared size, XOR and decompress the
body, check the size, resolve the row width (`neighborWidth` stands for
`_infer_width_from_neighbor`, `None` when no plaintext sibling exists),
and split the payload into rows, decoding each as ASCII.  Raised Python
exceptions become `Except.error`. -/
def stream_from_encrypted (decompress : List Nat → Option (List Nat))
    (prng : Nat → Nat → Nat) (seed crcFilename : Nat)
    (neighborWidth : Option Nat) (data : List Nat) :
    Except String (List (List Char)) :=
  if data.length < 4 then Except.error "Encrypted file too short"
  else
    match decompress (xorKs prng (seed_key seed crcFilename) 4 (data.drop 4)) with
    | none => Except.error "zlib decompress failed"
    | some raw =>
      if raw.length ≠ fromBytesLE (xorKs prng (seed_key seed crcFilename) 0 (data.take 4)) then
        Except.error "Size mismatch after decrypt/decompress."
      else widthStage neighborWidth raw

/-! ### Solution engine (`solution/Engine.py`) -/

/-- `Engine._is_free`: anything other than `'.'` is blocked. -/
def is_free (ch : Char) : Bool := ch == '.'

/-- `Engine._is_goal`. -/
def is_goal (ch : Char) : Bool := ch == 'F'

/-- Terminal outcome of a run: collision (`"BANG! You hit a wall"`), goal
(`"Congratulation! you reach the goal!!!"`), or stream exhaustion (plain
return from the `StopIteration` handler). -/
inductive Outcome where
  | crashed
  | finished
  | exhausted
deriving DecidableEq, Repr

/-- Result of `Engine.run_game` — the returned `(movements, path)` pair,
together with the terminal outcome and instrumentation the verification
refers to: the messages printed by the planner-fault handler (`logs`),
the effective (range-coerced) move applied on each tick (`moves`), the
car column after each tick's clamp (`xs`), the number of ticks, and the
lookahead buffer contents at the moment of return (`finalBuffer`). -/
structure RunResult where
  movements : Nat
  path : List Int
  outcome : Outcome
  logs : List String
  moves : List Int
  xs : List Int
  ticks : Nat
  finalBuffer : List (List Char)
deriving DecidableEq, Repr

/-- In-flight state of the `run_game` loop. -/
structure EngSt where
  buffer : List (List Char)
  x : Int
  movements : Nat
  path : List Int
  logs : List String
  moves : List Int
  xs : List Int
  ticks : Nat
deriving DecidableEq, Repr

/-- `Engine.__init__`: `start_x if (0 < start_x < Engine.W) else Engine.W//2`
with the class constant `Engine.W = 10`. -/
def engineStartX (startX : Int) : Int :=
  if 0 < startX ∧ startX < 10 then startX else 5

/-- One tick of `run_game` after the planner's answer is known: range
coercion of the move, movement counting, clamped column update, and the
collision check against the front row of the buffer.  Returns the final
`RunResult` when the tick ends the game (`inl` — crash or goal), or the
advanced state with the consumed row popped (`inr`). -/
def tickCore (width : Nat) (st : EngSt) (move0 : Int) (path' : List Int)
    (logs' : List String) : Sum RunResult EngSt :=
  let move := if move0 < -1 ∨ 1 < move0 then (0 : Int) else move0
  let movements := if move ≠ 0 then st.movements + 1 else st.movements
  let x := max 0 (min ((width : Int) - 1) (st.x + move))
  let ch := (st.buffer.headD []).getD x.toNat ' '
  if is_free ch then
    Sum.inr { buffer := st.buffer.tail, x := x, movements := movements, path := path',
              logs := logs', moves := st.moves ++ [move], xs := st.xs ++ [x],
              ticks := st.ticks + 1 }
  else
    Sum.inl { movements := movements, path := path',
              outcome := if is_goal ch then Outcome.finished else Outcome.crashed,
              logs := logs', moves := st.moves ++ [move], xs := st.xs ++ [x],
              ticks := st.ticks + 1, finalBuffer := st.buffer }

/-- One tick including the row-width sanity check (a `ValueError` raise)
and the guarded planner call: a planner exception is caught, printed and
treated as move `0`, with no `path` entry (the `append` sits inside the
`try` block). -/
def tick (ai : List (List Char) → Int → Except String Int) (width : Nat)
    (st : EngSt) : Except String (Sum RunResult EngSt) :=
  if st.buffer.any (fun r => r.length != width) then
    Except.error "Inconsistent row width detected in stream."
  else
    match ai st.buffer st.x with
    | Except.error e => Except.ok (tickCore width st 0 st.path (st.logs ++ [e]))
    | Except.ok v => Except.ok (tickCore width st v (st.path ++ [v]) st.logs)

/-- The `while True` simulation loop: run one tick; on survival the
consumed row is already popped (`tickCore`), then append the next stream
row, or return immediately — with what the verification labels the
Exhausted outcome — when the stream has no further row (the
`StopIteration` handler; its `_is_goal(...) == "F"` test compares a bool
to a string and is always false, so both of its branches return the same
`(movements, path)` pair). -/
def runLoop (ai : List (List Char) → Int → Except String Int) (width : Nat) :
    List (List Char) → EngSt → Except String RunResult
  | rest, st =>
    match tick ai width st with
    | Except.error e => Except.error e
    | Except.ok (Sum.inl r) => Except.ok r
    | Except.ok (Sum.inr st') =>
      match rest with
      | [] =>
        Except.ok
          { movements := st'.movements, path := st'.path,
            outcome := Outcome.exhausted, logs := st'.logs, moves := st'.moves,
            xs := st'.xs, ticks := st'.ticks, finalBuffer := st'.buffer }
      | r :: rest' => runLoop ai width rest' { st' with buffer := st'.buffer ++ [r] }

/-- The `(0, [])` early return of `run_game` (empty stream or zero-width
first row), labelled Exhausted with zero ticks. -/
def emptyRunResult : RunResult :=
  { movements := 0, path := [], outcome := Outcome.exhausted,
    logs := [], moves := [], xs := [], ticks := 0, finalBuffer := [] }

/-- `Engine.run_game` of `Engine(lookahead, start_x)` on a finite stream:
prime the buffer with the first row plus up to `lookahead - 1` further
rows, then run the loop.  An empty stream and a zero-width first row
return `(0, [])` immediately (modelled as the Exhausted outcome with zero
ticks). -/
def run_game (lookahead : Nat) (startX : Int)
    (stream : List (List Char)) (ai : List (List Char) → Int → Except String Int) :
    Except String RunResult :=
  match stream with
  | [] => Except.ok emptyRunResult
  | first :: rest0 =>
    if first.length = 0 then
      Except.ok emptyRunResult
    else
      runLoop ai first.length (rest0.drop (lookahead - 1))
        { buffer := first :: rest0.take (lookahead - 1), x := engineStartX startX,
          movements := 0, path := [], logs := [], moves := [], xs := [], ticks := 0 }

/-- The always-`Stay` planner, used for concrete runs. -/
def stayAI : List (List Char) → Int → Except String Int := fun _ _ => Except.ok 0

/-- The fault-free shadow of a planner: where `ai` raises it returns
Stay, and any returned value is coerced into `[-1, 1]` up front.  Used to
state that the engine recovers from planner faults by behaving as if the
move were Stay. -/
def sanitizeAI (ai : List (List Char) → Int → Except String Int) :
    List (List Char) → Int → Except String Int :=
  fun buffer x =>
    match ai buffer x with
    | Except.error _ => Except.ok 0
    | Except.ok v => Except.ok (if v < -1 ∨ 1 < v then 0 else v)

/-- The result of running the Stay planner on the single row `".."`. -/
def stayRow2Result : RunResult :=
  { movements := 0, path := [0], outcome := Outcome.exhausted, logs := [],
    moves := [0], xs := [1], ticks := 1, finalBuffer := [] }

/-- The result of running the Stay planner on three rows `".."` with
lookahead 3: one tick, two rows left in the window. -/
def stayRows3Result : RunResult :=
  { movements := 0, path := [0], outcome := Outcome.exhausted, logs := [],
    moves := [0], xs := [1], ticks := 1, finalBuffer := [['.', '.'], ['.', '.']] }

/-! ### Student engine (`student/Engine.py`) -/

/-- The loop of `student/Engine.py`'s `run_game` (class constants
`W = 13`, `H = 8`): per iteration the move is validated against the
literal tuple `(-1, 0, 1)`, the column clamped to `[0, self.W-1] = [0, 12]`
(regardless of actual row width), the next stream row is pulled —
returning the dodge count when the stream is exhausted — and then
collision/dodge detection is performed against `buffer[-1]`, the row at
the *tail* of the lookahead window; `row[x]` out of range is an
`IndexError` (`Except.error`). -/
def studentRunGo (ai : List (List Char) → Int → Int) :
    List (List Char) → List (List Char) → Int → Nat → Except Unit Nat
  | rest, buffer, x, dodges =>
    let move0 := ai buffer x
    let move := if move0 = -1 ∨ move0 = 0 ∨ move0 = 1 then move0 else 0
    let x' := max 0 (min 12 (x + move))
    match rest with
    | [] => Except.ok dodges
    | row :: rest' =>
      if (buffer.getLastD []).contains '#' then
        match (buffer.getLastD []).get? x'.toNat with
        | none => Except.error ()
        | some c =>
          if c = '#' then Except.ok dodges
          else studentRunGo ai rest' (buffer.tail ++ [row]) x' (dodges + 1)
      else studentRunGo ai rest' (buffer.tail ++ [row]) x' dodges

/-- `student/Engine.py` `run_game`: prefill `H = 8` rows — returning 0
dodges when the stream is shorter — then loop. -/
def student_run_game (stream : List (List Char)) (ai : List (List Char) → Int → Int)
    (startX : Int) : Except Unit Nat :=
  if stream.length < 8 then Except.ok 0
  else studentRunGo ai (stream.drop 8) (stream.take 8) startX 0

/-- The always-Stay planner for the student engine. -/
def studentStayAI : List (List Char) → Int → Int := fun _ _ => 0

/-! ### Lookahead planner (`solution/AI.py`) -/

/-- `AI.__init__` sets `self.width = Engine.W`, the fixed class width 10 —
independent of the rows actually passed to the planner. -/
def AIwidth : Nat := 10

/-- The `best is None or sub < best` accumulation of `_search_branch`
(the value is `min`; Python keeps the first tie, which has the same
value). -/
def mergeBest (best sub : Option Nat) : Option Nat :=
  match sub with
  | none => best
  | some s =>
    match best with
    | none => some s
    | some b => some (min b s)

/-- One move candidate inside `_search_branch`: bounds check against
`self.width`, collision check `row[nx] == '#'` — where an out-of-range
index raises `IndexError` (`Except.error`) — and the lateral cost
increment.  `ok none` means the candidate is pruned; `ok (some (nx, c))`
means the search recurses at column `nx` with accumulated cost `c`. -/
def moveGate (width : Nat) (row : List Char) (curX : Int) (cost : Nat) (move : Int) :
    Except Unit (Option (Int × Nat)) :=
  if curX + move < 0 ∨ (width : Int) ≤ curX + move then Except.ok none
  else
    match row.get? (curX + move).toNat with
    | none => Except.error ()
    | some c =>
      if c = '#' then Except.ok none
      else Except.ok (some (curX + move, cost + if move = 0 then 0 else 1))

/-- `AI._search_branch`, with `remaining = max_depth - depth` as explicit
recursion fuel: `remaining = 0` is the `depth >= self.max_depth` guard
returning the accumulated cost; otherwise `visible_rows[depth]` is read
(an `IndexError` when the window is shorter) and the three moves are
explored in the order `(-1, 0, 1)`, propagating the first error. -/
def search_branch (width : Nat) (rows : List (List Char)) :
    Nat → Nat → Int → Nat → Except Unit (Option Nat)
  | 0, _, _, cost => Except.ok (some cost)
  | remaining + 1, depth, curX, cost =>
    match rows.get? depth with
    | none => Except.error ()
    | some row =>
      (moveGate width row curX cost (-1)).bind fun g1 =>
      (match g1 with
        | none => Except.ok none
        | some (nx, nc) => search_branch width rows remaining (depth + 1) nx nc).bind fun s1 =>
      (moveGate width row curX cost 0).bind fun g2 =>
      (match g2 with
        | none => Except.ok none
        | some (nx, nc) => search_branch width rows remaining (depth + 1) nx nc).bind fun s2 =>
      (moveGate width row curX cost 1).bind fun g3 =>
      (match g3 with
        | none => Except.ok none
        | some (nx, nc) => search_branch width rows remaining (depth + 1) nx nc).bind fun s3 =>
      Except.ok (mergeBest (mergeBest (mergeBest none s1) s2) s3)

/-- `AI._is_better_move`: lower cost wins; on a cost tie prefer Stay;
when neither is Stay prefer the column closer to the centre
`(self.width - 1) / 2 = 4.5`.  The float comparison is exact for these
half-integer values, modelled scaled by 2 in the integers.
`bestCost = none` stands for the initial `float("inf")`. -/
def is_better_move (candCost : Nat) (candMove : Int) (bestCost : Option Nat)
    (bestMove : Int) (carX : Int) : Bool :=
  match bestCost with
  | none => true
  | some bc =>
    if candCost < bc then true
    else if bc < candCost then false
    else if candMove == 0 && !(bestMove == 0) then true
    else if bestMove == 0 && !(candMove == 0) then false
    else (2 * (carX + candMove) - ((AIwidth : Int) - 1)).natAbs
        < (2 * (carX + bestMove) - ((AIwidth : Int) - 1)).natAbs

/-- The treatment of one first move in `choose_move`: bounds check against
the *local* width `len(visible_rows[0])`, the immediate-crash check on the
front row (always in range, since the bound is that row's own length),
then `_search_branch(visible_rows, 1, new_x, initial_cost)`. -/
def firstCost (maxDepth : Nat) (rows : List (List Char)) (row0 : List Char)
    (carX m : Int) : Except Unit (Option Nat) :=
  if carX + m < 0 ∨ (row0.length : Int) ≤ carX + m then Except.ok none
  else if row0.getD (carX + m).toNat '.' = '#' then Except.ok none
  else search_branch AIwidth rows (maxDepth - 1) 1 (carX + m) (if m = 0 then 0 else 1)

/-- The accumulation step of `choose_move`'s loop over the three first
moves: a surviving candidate (`ok (some cost)`) replaces the best when
`_is_better_move` approves; `ok none` (pruned, or no safe continuation)
keeps the best; an `IndexError` from the search propagates. -/
def chooseStep (carX : Int) (st : Option Nat × Int) (m : Int)
    (res : Except Unit (Option Nat)) : Except Unit (Option Nat × Int) :=
  res.bind fun r =>
    match r with
    | none => Except.ok st
    | some c =>
      if is_better_move c m st.1 st.2 carX then Except.ok (some c, m)
      else Except.ok st

/-- `AI.choose_move` of an `AI(max_depth)` instance: an empty window
returns Stay; otherwise the three first moves are tried in the order
`(-1, 0, 1)` starting from `best_cost = inf`, `best_move = 0` (Stay is
also the fallback when nothing survives). -/
def choose_move (maxDepth : Nat) (rows : List (List Char)) (carX : Int) :
    Except Unit Int :=
  match rows with
  | [] => Except.ok 0
  | row0 :: _ =>
    (chooseStep carX (none, 0) (-1) (firstCost maxDepth rows row0 carX (-1))).bind fun s1 =>
    (chooseStep carX s1 0 (firstCost maxDepth rows row0 carX 0)).bind fun s2 =>
    (chooseStep carX s2 1 (firstCost maxDepth rows row0 carX 1)).bind fun s3 =>
    Except.ok s3.2

/-- First move `m` survives: it passes `choose_move`'s immediate checks
and the bounded-depth search finds a collision-free continuation (a
finite cost). -/
def survivesFirst (maxDepth : Nat) (rows : List (List Char)) (carX m : Int) : Prop :=
  ∃ c, firstCost maxDepth rows (rows.headD []) carX m = Except.ok (some c)

/-- The pure value computed by one step of `choose_move`'s
best-candidate fold. -/
def stepVal (carX : Int) (st : Option Nat × Int) (m : Int) :
    Option Nat → Option Nat × Int
  | none => st
  | some c => if is_better_move c m st.1 st.2 carX then (some c, m) else st

/-! ### Codec lemmas -/

theorem xorKs_length (prng : Nat → Nat → Nat) (key : Nat) :
    ∀ (j : Nat) (l : List Nat), (xorKs prng key j l).length = l.length
  | _, [] => rfl
  | j, _ :: bs => congrArg Nat.succ (xorKs_length prng key (j + 1) bs)

theorem xorKs_append (prng : Nat → Nat → Nat) (key : Nat) :
    ∀ (j : Nat) (l₁ l₂ : List Nat),
      xorKs prng key j (l₁ ++ l₂)
        = xorKs prng key j l₁ ++ xorKs prng key (j + l₁.length) l₂
  | j, [], l₂ => by simp [xorKs]
  | j, b :: bs, l₂ => by
    show (b ^^^ ksByte prng key j) :: xorKs prng key (j + 1) (bs ++ l₂)
        = (b ^^^ ksByte prng key j) :: (xorKs prng key (j + 1) bs
            ++ xorKs prng key (j + (bs.length + 1)) l₂)
    rw [xorKs_append prng key (j + 1) bs l₂,
      show j + 1 + bs.length = j + (bs.length + 1) from by omega]

theorem xorKs_xorKs (prng : Nat → Nat → Nat) (key : Nat) :
    ∀ (j : Nat) (l : List Nat), xorKs prng key j (xorKs prng key j l) = l
  | _, [] => rfl
  | j, b :: bs => by
    simp only [xorKs, Nat.xor_assoc, Nat.xor_self, Nat.xor_zero]
    rw [xorKs_xorKs prng key (j + 1) bs]

theorem fromBytesLE_toBytesLE4 {n : Nat} (h : n < 2 ^ 32) :
    fromBytesLE (toBytesLE4 n) = n := by
  simp only [toBytesLE4, fromBytesLE]
  omega

theorem flatten_length_uniform {α : Type} {W : Nat} :
    ∀ {L : List (List α)}, (∀ l ∈ L, l.length = W) → L.flatten.length = L.length * W
  | [], _ => by simp
  | l :: L', h => by
    have hl : l.length = W := h l (by simp)
    have ih := flatten_length_uniform (L := L') (fun x hx => h x (by simp [hx]))
    simp [List.flatten_cons, hl, ih, Nat.succ_mul, Nat.add_comm]

theorem chunksGo_flatten {W : Nat} (hW : 0 < W) :
    ∀ (L : List (List Nat)) (fuel : Nat), (∀ l ∈ L, l.length = W) →
      L.flatten.length ≤ fuel → chunksGo W fuel L.flatten = L
  | [], fuel, _, _ => by cases fuel <;> rfl
  | l :: L', fuel, hlen, hfuel => by
    have hl : l.length = W := hlen l (by simp)
    have hlenflat : (l :: L').flatten.length = l.length + L'.flatten.length := by
      simp [List.flatten_cons]
    cases fuel with
    | zero => rw [hlenflat] at hfuel; omega
    | succ f =>
      cases l with
      | nil => simp at hl; omega
      | cons a as =>
        show chunksGo W (f + 1) ((a :: as) ++ L'.flatten) = _
        rw [show ((a :: as) ++ L'.flatten : List Nat) = a :: (as ++ L'.flatten) from rfl]
        simp only [chunksGo]
        rw [show (a :: (as ++ L'.flatten) : List Nat) = (a :: as) ++ L'.flatten from rfl,
          List.take_left' hl, List.drop_left' hl,
          chunksGo_flatten hW L' f (fun x hx => hlen x (by simp [hx])) (by omega)]

theorem chunks_flatten {W : Nat} (hW : 0 < W) (L : List (List Nat))
    (h : ∀ l ∈ L, l.length = W) : chunks W L.flatten = L :=
  chunksGo_flatten hW L L.flatten.length h (Nat.le_refl _)

theorem ofNat_toNat_alpha {c : Char} (h : c = '.' ∨ c = '#' ∨ c = 'F') :
    Char.ofNat c.toNat = c := by
  rcases h with h | h | h <;> subst h <;> decide

/-- Decoding an encoded asset reaches the width-splitting stage with the
original payload recovered exactly: the keystream XOR, the length header
and the (de)compression all invert. -/
theorem stream_from_encrypted_encrypt
    (compress : List Nat → List Nat) (decompress : List Nat → Option (List Nat))
    (prng : Nat → Nat → Nat) (rows : List (List Char)) (seed crc : Nat)
    (neighborWidth : Option Nat)
    (hzlib : decompress (compress ((rows.flatten).map Char.toNat))
      = some ((rows.flatten).map Char.toNat))
    (hsize : rows.flatten.length < 2 ^ 32) :
    stream_from_encrypted decompress prng seed crc neighborWidth
        (encrypt_trk_bytes compress prng rows seed crc)
      = widthStage neighborWidth ((rows.flatten).map Char.toNat) := by
  have hplen : ((rows.flatten).map Char.toNat).length = rows.flatten.length := by
    rw [List.length_map]
  have hdata : encrypt_trk_bytes compress prng rows seed crc
      = xorKs prng (seed_key seed crc) 0 (toBytesLE4 ((rows.flatten).map Char.toNat).length)
        ++ xorKs prng (seed_key seed crc) 4 (compress ((rows.flatten).map Char.toNat)) := by
    simp only [encrypt_trk_bytes]
    rw [xorKs_append]
    rfl
  have hhdrlen : (xorKs prng (seed_key seed crc) 0
      (toBytesLE4 ((rows.flatten).map Char.toNat).length)).length = 4 := by
    rw [xorKs_length]
    rfl
  have hlen4 : (xorKs prng (seed_key seed crc) 0
        (toBytesLE4 ((rows.flatten).map Char.toNat).length)
      ++ xorKs prng (seed_key seed crc) 4
        (compress ((rows.flatten).map Char.toNat))).length
      = 4 + (compress ((rows.flatten).map Char.toNat)).length := by
    rw [List.length_append, hhdrlen, xorKs_length]
  rw [hdata, stream_from_encrypted]
  rw [if_neg (by rw [hlen4]; omega)]
  rw [List.take_left' hhdrlen, List.drop_left' hhdrlen, xorKs_xorKs, xorKs_xorKs, hzlib]
  show (if ((rows.flatten).map Char.toNat).length
        ≠ fromBytesLE (toBytesLE4 ((rows.flatten).map Char.toNat).length) then
      Except.error "Size mismatch after decrypt/decompress."
    else widthStage neighborWidth ((rows.flatten).map Char.toNat))
    = widthStage neighborWidth ((rows.flatten).map Char.toNat)
  rw [fromBytesLE_toBytesLE4 (by omega), if_neg (by omega)]

/-- The width-splitting stage returns the original rows whenever the
resolved width equals the grid's actual width. -/
theorem widthStage_ok {rows : List (List Char)} {W : Nat} {neighborWidth : Option Nat}
    (hW : 0 < W) (hrect : ∀ r ∈ rows, r.length = W)
    (halpha : ∀ r ∈ rows, ∀ c ∈ r, c = '.' ∨ c = '#' ∨ c = 'F')
    (hwidth : widthOr neighborWidth (infer_default_width rows.flatten.length) = some W) :
    widthStage neighborWidth ((rows.flatten).map Char.toNat) = Except.ok rows := by
  have hplen : ((rows.flatten).map Char.toNat).length = rows.flatten.length := by
    rw [List.length_map]
  have hrectN : ∀ l ∈ rows.map (List.map Char.toNat), l.length = W := by
    intro l hl
    rcases List.mem_map.mp hl with ⟨r, hr, rfl⟩
    simpa using hrect r hr
  have hflatlen : rows.flatten.length = rows.length * W := by
    exact flatten_length_uniform hrect
  rw [widthStage, hplen, hwidth]
  show (if rows.flatten.length % W ≠ 0 then
      Except.error "Unable to infer row width from encrypted payload size."
    else if ((rows.flatten).map Char.toNat).all (fun b => b < 128) then
      Except.ok ((chunks W ((rows.flatten).map Char.toNat)).map
        (fun chunk => chunk.map Char.ofNat))
    else Except.error "ascii decode failed")
    = Except.ok rows
  rw [if_neg (by simp [hflatlen, Nat.mul_mod_left])]
  rw [if_pos]
  · rw [List.map_flatten, chunks_flatten hW _ hrectN]
    rw [List.map_map, show rows.map (List.map Char.ofNat ∘ List.map Char.toNat)
        = rows.map id from ?_, List.map_id]
    apply List.map_congr_left
    intro r hr
    simp only [Function.comp_apply, List.map_map, id]
    rw [show List.map (Char.ofNat ∘ Char.toNat) r = List.map id r from ?_, List.map_id]
    apply List.map_congr_left
    intro c hc
    simp [ofNat_toNat_alpha (halpha r hr c hc)]
  · rw [List.all_eq_true]
    intro b hb
    rcases List.mem_map.mp hb with ⟨c, hc, rfl⟩
    rcases List.mem_flatten.mp hc with ⟨r, hr, hcr⟩
    rcases halpha r hr c hcr with h | h | h <;> subst h <;> decide

/-! ### Claim C1 — codec round-trip -/

/-- C1, amended: decoding an encrypted asset produced by the encoder with
the same `(seed, filename)` pair inverts the XOR keystream, the 4-byte
little-endian length header and the compression bit-exactly, and yields
exactly the original grid rows whenever the width the loader resolves
(from a plaintext sibling, or else the first of the default candidates
`(10, 13, 16)` dividing the payload length) equals the grid's actual
width.  For a grid whose width is not recovered that way the round trip
does not return the original rows (see the counterexample). -/
theorem claim1_roundtrip_with_known_width
    (compress : List Nat → List Nat) (decompress : List Nat → Option (List Nat))
    (prng : Nat → Nat → Nat) (rows : List (List Char)) (W seed crc : Nat)
    (neighborWidth : Option Nat)
    (hzlib : ∀ l, decompress (compress l) = some l)
    (hW : 0 < W)
    (hrect : ∀ r ∈ rows, r.length = W)
    (halpha : ∀ r ∈ rows, ∀ c ∈ r, c = '.' ∨ c = '#' ∨ c = 'F')
    (hsize : rows.flatten.length < 2 ^ 32)
    (hwidth : widthOr neighborWidth (infer_default_width rows.flatten.length) = some W) :
    stream_from_encrypted decompress prng seed crc neighborWidth
        (encrypt_trk_bytes compress prng rows seed crc) = Except.ok rows := by
  rw [stream_from_encrypted_encrypt compress decompress prng rows seed crc neighborWidth
    (hzlib _) hsize]
  exact widthStage_ok hW hrect halpha hwidth

/-- Witness for C1's amended round-trip: a 1×10 grid with an identity
compressor and the all-zero keystream round-trips exactly. -/
theorem claim1_roundtrip_with_known_width_witness :
    stream_from_encrypted (fun l => some l) (fun _ _ => 0) 7 99 none
        (encrypt_trk_bytes (fun l => l) (fun _ _ => 0) [List.replicate 10 '.'] 7 99)
      = Except.ok [List.replicate 10 '.'] :=
  claim1_roundtrip_with_known_width (fun l => l) (fun l => some l) (fun _ _ => 0)
    [List.replicate 10 '.'] 10 7 99 none (fun _ => rfl) (by decide) (by decide)
    (by decide) (by decide) (by decide)

set_option maxRecDepth 100000 in
/-- C1 counterexample, refuting the claim for *every* rectangular grid:
a rectangular 2×2 grid over the alphabet, encoded and decoded with the
same `(seed, filename)` pair (and a (de)compressor pair satisfying the
round-trip contract), does not decode to the original rows — the payload
length 4 is divisible by none of the loader's candidate widths
`(10, 13, 16)`, so the decode raises instead of returning the grid. -/
theorem claim1_counterexample :
    stream_from_encrypted (fun l => some l) (fun _ _ => 0) 0 0 none
        (encrypt_trk_bytes (fun l => l) (fun _ _ => 0) [['.', '#'], ['#', '.']] 0 0)
      = Except.error "Unable to infer row width from encrypted payload size." := by
  rfl

/-! ### Claim C2 — width ambiguity -/

set_option maxRecDepth 100000 in
/-- C2 counterexample: a payload of 130 bytes is divisible by *two*
candidate widths (10 and 13), yet with no explicit width the decode does
not fail at all: the loader silently picks the first candidate, width 10,
and here reshapes a 10×13 grid into 13 rows of width 10. -/
theorem claim2_counterexample :
    (130 % 10 = 0 ∧ 130 % 13 = 0 ∧ infer_default_width 130 = some 10) ∧
    stream_from_encrypted (fun l => some l) (fun _ _ => 0) 0 0 none
        (encrypt_trk_bytes (fun l => l) (fun _ _ => 0)
          (List.replicate 10 (List.replicate 13 '.')) 0 0)
      = Except.ok (List.replicate 13 (List.replicate 10 '.')) :=
  ⟨⟨rfl, rfl, rfl⟩, by rfl⟩

/-- C2, amended: with no explicit width, decoding fails (with a generic
`ValueError`; no `AmbiguousWidthError` class exists) exactly when *no*
candidate width in `(10, 13, 16)` divides the payload length; when more
than one candidate divides, the loader does not fail but silently picks
the first candidate in that order. -/
theorem claim2_width_inference (n : Nat) :
    (infer_default_width n = none ↔ n % 10 ≠ 0 ∧ n % 13 ≠ 0 ∧ n % 16 ≠ 0) ∧
    (n % 10 = 0 → infer_default_width n = some 10) ∧
    (n % 10 ≠ 0 → n % 13 = 0 → infer_default_width n = some 13) ∧
    (n % 10 ≠ 0 → n % 13 ≠ 0 → n % 16 = 0 → infer_default_width n = some 16) ∧
    (∀ raw : List Nat, raw.length = n → infer_default_width n = none →
      widthStage none raw
        = Except.error "Unable to infer row width from encrypted payload size.") := by
  have hiff : infer_default_width n = none ↔ (n % 10 ≠ 0 ∧ n % 13 ≠ 0 ∧ n % 16 ≠ 0) := by
    unfold infer_default_width
    split_ifs with h1 h2 h3 <;> simp_all
  refine ⟨hiff, ?_, ?_, ?_, ?_⟩
  · intro h
    simp [infer_default_width, h]
  · intro h1 h2
    simp [infer_default_width, h1, h2]
  · intro h1 h2 h3
    simp [infer_default_width, h1, h2, h3]
  · intro raw hlen hnone
    rw [widthStage, hlen,
      show widthOr none (infer_default_width n) = none from by rw [hnone]; rfl]

/-- Witness for the amended C2, instantiated at payload length 7 (which
no candidate width divides). -/
theorem claim2_width_inference_witness :
    (infer_default_width 7 = none ↔ 7 % 10 ≠ 0 ∧ 7 % 13 ≠ 0 ∧ 7 % 16 ≠ 0) ∧
    (7 % 10 = 0 → infer_default_width 7 = some 10) ∧
    (7 % 10 ≠ 0 → 7 % 13 = 0 → infer_default_width 7 = some 13) ∧
    (7 % 10 ≠ 0 → 7 % 13 ≠ 0 → 7 % 16 = 0 → infer_default_width 7 = some 16) ∧
    (∀ raw : List Nat, raw.length = 7 → infer_default_width 7 = none →
      widthStage none raw
        = Except.error "Unable to infer row width from encrypted payload size.") :=
  claim2_width_inference 7

/-! ### Engine lemmas -/

/-- Case analysis of one tick: there is an effective move `mv ∈ [-1, 1]`
and a clamped column `x ∈ [0, width)` such that the tick either advances
(popping the front row) or halts with a crash/goal outcome — never with
the Exhausted outcome. -/
theorem tickCore_cases (width : Nat) (hw1 : 1 ≤ width) (st : EngSt) (move0 : Int)
    (p : List Int) (lg : List String) :
    ∃ mv x, (-1 ≤ mv ∧ mv ≤ 1) ∧ 0 ≤ x ∧ x < (width : Int) ∧
      (tickCore width st move0 p lg = Sum.inr
          { buffer := st.buffer.tail, x := x,
            movements := if mv ≠ 0 then st.movements + 1 else st.movements,
            path := p, logs := lg, moves := st.moves ++ [mv], xs := st.xs ++ [x],
            ticks := st.ticks + 1 } ∨
        ∃ oc, (oc = Outcome.crashed ∨ oc = Outcome.finished) ∧
          tickCore width st move0 p lg = Sum.inl
            { movements := if mv ≠ 0 then st.movements + 1 else st.movements,
              path := p, outcome := oc, logs := lg, moves := st.moves ++ [mv],
              xs := st.xs ++ [x], ticks := st.ticks + 1, finalBuffer := st.buffer }) := by
  refine ⟨if move0 < -1 ∨ 1 < move0 then 0 else move0,
    max 0 (min ((width : Int) - 1)
      (st.x + if move0 < -1 ∨ 1 < move0 then 0 else move0)), ?_, ?_, ?_, ?_⟩
  · constructor <;> split <;> omega
  · exact le_max_left _ _
  · have h1 : min ((width : Int) - 1)
        (st.x + if move0 < -1 ∨ 1 < move0 then 0 else move0) ≤ (width : Int) - 1 :=
      min_le_left _ _
    have h2 : max 0 (min ((width : Int) - 1)
        (st.x + if move0 < -1 ∨ 1 < move0 then 0 else move0))
        ≤ max 0 ((width : Int) - 1) := max_le_max (le_refl 0) h1
    have h3 : max 0 ((width : Int) - 1) = (width : Int) - 1 := by
      apply max_eq_right
      omega
    omega
  · simp only [tickCore]
    set mv := (if move0 < -1 ∨ 1 < move0 then (0 : Int) else move0) with hmv
    set xx := max 0 (min ((width : Int) - 1) (st.x + mv)) with hxx
    set ch := (st.buffer.headD []).getD xx.toNat ' ' with hch
    by_cases hfree : is_free ch = true
    · left
      rw [if_pos hfree]
    · right
      exact ⟨if is_goal ch = true then Outcome.finished else Outcome.crashed,
        by split <;> simp, by rw [if_neg hfree]⟩

/-- Under a width-uniform buffer and stream the loop never raises the
inconsistent-width `ValueError`: it returns a result. -/
theorem runLoop_ok (ai : List (List Char) → Int → Except String Int) (width : Nat)
    (hw1 : 1 ≤ width) :
    ∀ (rest : List (List Char)) (st : EngSt),
      (∀ r ∈ st.buffer, r.length = width) → (∀ r ∈ rest, r.length = width) →
      ∃ res, runLoop ai width rest st = Except.ok res := by
  intro rest
  induction rest with
  | nil =>
    intro st hbuf _
    have hchk : st.buffer.any (fun r => r.length != width) = false := by
      simp only [List.any_eq_false, bne_iff_ne, ne_eq, not_not]
      exact hbuf
    rcases hai : ai st.buffer st.x with e | v
    · have htick : tick ai width st
          = Except.ok (tickCore width st 0 st.path (st.logs ++ [e])) := by
        rw [tick, if_neg (by simp [hchk]), hai]
      rcases tickCore_cases width hw1 st 0 st.path (st.logs ++ [e]) with
        ⟨mv, x, _, _, _, hcase | ⟨oc, _, hcase⟩⟩ <;>
        · rw [runLoop, htick, hcase]
          exact ⟨_, rfl⟩
    · have htick : tick ai width st
          = Except.ok (tickCore width st v (st.path ++ [v]) st.logs) := by
        rw [tick, if_neg (by simp [hchk]), hai]
      rcases tickCore_cases width hw1 st v (st.path ++ [v]) st.logs with
        ⟨mv, x, _, _, _, hcase | ⟨oc, _, hcase⟩⟩ <;>
        · rw [runLoop, htick, hcase]
          exact ⟨_, rfl⟩
  | cons row rest' ih =>
    intro st hbuf hrest
    have hchk : st.buffer.any (fun r => r.length != width) = false := by
      simp only [List.any_eq_false, bne_iff_ne, ne_eq, not_not]
      exact hbuf
    have hbuf' : ∀ q ∈ st.buffer.tail ++ [row], q.length = width := by
      intro q hq
      rcases List.mem_append.mp hq with hq | hq
      · exact hbuf q (List.mem_of_mem_tail hq)
      · simp only [List.mem_singleton] at hq
        subst hq
        exact hrest q (by simp)
    have hrest' : ∀ q ∈ rest', q.length = width := fun q hq => hrest q (by simp [hq])
    rcases hai : ai st.buffer st.x with e | v
    · have htick : tick ai width st
          = Except.ok (tickCore width st 0 st.path (st.logs ++ [e])) := by
        rw [tick, if_neg (by simp [hchk]), hai]
      rcases tickCore_cases width hw1 st 0 st.path (st.logs ++ [e]) with
        ⟨mv, x, _, _, _, hcase | ⟨oc, _, hcase⟩⟩
      · rw [runLoop, htick, hcase]
        exact ih _ hbuf' hrest'
      · rw [runLoop, htick, hcase]
        exact ⟨_, rfl⟩
    · have htick : tick ai width st
          = Except.ok (tickCore width st v (st.path ++ [v]) st.logs) := by
        rw [tick, if_neg (by simp [hchk]), hai]
      rcases tickCore_cases width hw1 st v (st.path ++ [v]) st.logs with
        ⟨mv, x, _, _, _, hcase | ⟨oc, _, hcase⟩⟩
      · rw [runLoop, htick, hcase]
        exact ih _ hbuf' hrest'
      · rw [runLoop, htick, hcase]
        exact ⟨_, rfl⟩

/-- When the width sanity check passes, a tick is the guarded planner
call followed by `tickCore`, for some move/path/log arguments. -/
theorem tick_shapes (ai : List (List Char) → Int → Except String Int) (width : Nat)
    (st : EngSt) (hchk : ¬ st.buffer.any (fun r => r.length != width) = true) :
    ∃ move0 p lg, tick ai width st = Except.ok (tickCore width st move0 p lg) := by
  rcases hai : ai st.buffer st.x with e | v
  · exact ⟨0, st.path, st.logs ++ [e], by rw [tick, if_neg hchk, hai]⟩
  · exact ⟨v, st.path ++ [v], st.logs, by rw [tick, if_neg hchk, hai]⟩

/-- Master accounting for the simulation loop, for any planner and stream:
tick-count bound, the exact tick count and window size when the run ends
Exhausted, the appended column trace with its bounds, and movement
counting over the effective moves. -/
theorem runLoop_master (ai : List (List Char) → Int → Except String Int) (width : Nat)
    (hw1 : 1 ≤ width) :
    ∀ (rest : List (List Char)) (st : EngSt) (res : RunResult),
      runLoop ai width rest st = Except.ok res → st.buffer ≠ [] →
      res.ticks ≤ st.ticks + rest.length + 1 ∧
      (res.outcome = Outcome.exhausted →
        res.ticks = st.ticks + rest.length + 1 ∧
        res.finalBuffer.length + 1 = st.buffer.length) ∧
      (∃ t, res.xs = st.xs ++ t ∧ ∀ x ∈ t, 0 ≤ x ∧ x < (width : Int)) ∧
      (∃ tm, res.moves = st.moves ++ tm ∧
        res.movements = st.movements + (tm.filter (fun m => m ≠ 0)).length) := by
  intro rest
  induction rest with
  | nil =>
    intro st res hrun hne
    by_cases hchk : st.buffer.any (fun r => r.length != width) = true
    · rw [runLoop, tick, if_pos hchk] at hrun
      simp at hrun
    rcases tick_shapes ai width st hchk with ⟨m0, p, lg, htick⟩
    rcases tickCore_cases width hw1 st m0 p lg with
      ⟨mv, x, hmv, hx0, hxw, hcase | ⟨oc, hoc, hcase⟩⟩
    · -- survived tick, stream exhausted
      rw [runLoop, htick, hcase] at hrun
      cases hrun
      refine ⟨by simp, fun _ => ⟨by simp,
          by have hpos : 0 < st.buffer.length := List.length_pos.mpr hne
             simp [List.length_tail]
             omega⟩,
        ⟨[x], by simp, by simp [hx0, hxw]⟩,
        ⟨[mv], by simp, ?_⟩⟩
      by_cases hmv0 : mv = 0 <;> simp [hmv0]
    · -- crash or goal on this tick
      rw [runLoop, htick, hcase] at hrun
      cases hrun
      refine ⟨by simp, ?_, ⟨[x], by simp, by simp [hx0, hxw]⟩,
        ⟨[mv], by simp, ?_⟩⟩
      · intro hex
        rcases hoc with h | h <;> simp [h] at hex
      · by_cases hmv0 : mv = 0 <;> simp [hmv0]
  | cons row rest' ih =>
    intro st res hrun hne
    by_cases hchk : st.buffer.any (fun r => r.length != width) = true
    · rw [runLoop, tick, if_pos hchk] at hrun
      simp at hrun
    rcases tick_shapes ai width st hchk with ⟨m0, p, lg, htick⟩
    rcases tickCore_cases width hw1 st m0 p lg with
      ⟨mv, x, hmv, hx0, hxw, hcase | ⟨oc, hoc, hcase⟩⟩
    · -- survived tick: recurse on the remaining stream
      rw [runLoop, htick, hcase] at hrun
      have hrec := ih _ res hrun (by simp)
      rcases hrec with ⟨h1, h2, ⟨t, hxs, hbnd⟩, ⟨tm, hmoves, hmovcount⟩⟩
      refine ⟨by simp at h1 ⊢; omega, ?_,
        ⟨x :: t, by simpa using hxs, ?_⟩, ⟨mv :: tm, by simpa using hmoves, ?_⟩⟩
      · intro hex
        rcases h2 hex with ⟨h2a, h2b⟩
        constructor
        · simp at h2a ⊢
          omega
        · have hpos : 0 < st.buffer.length := List.length_pos.mpr hne
          simp [List.length_tail] at h2b
          omega
      · intro y hy
        rcases List.mem_cons.mp hy with hy | hy
        · subst hy
          exact ⟨hx0, hxw⟩
        · exact hbnd y hy
      · simp only [List.filter_cons] at *
        by_cases hmv0 : mv = 0 <;> simp [hmv0] at hmovcount ⊢ <;> omega
    · -- crash or goal on this tick
      rw [runLoop, htick, hcase] at hrun
      cases hrun
      refine ⟨by simp only [List.length_cons]; omega, ?_,
        ⟨[x], by simp, by simp [hx0, hxw]⟩,
        ⟨[mv], by simp, ?_⟩⟩
      · intro hex
        rcases hoc with h | h <;> simp [h] at hex
      · by_cases hmv0 : mv = 0 <;> simp [hmv0]

/-! ### Claim C7 — termination -/

/-- C7 (confirmed): for every finite uniform-width row stream and every
planner, `run_game` returns a terminal result within at most
`len(stream)` ticks; a stream yielding zero rows terminates immediately
with zero ticks (Exhausted).  `1 ≤ lookahead` mirrors the constructor
check `lookahead >= 1`; width uniformity mirrors the `TrackGrid`
invariant (violating it raises the inconsistent-width `ValueError`). -/
theorem claim7_termination (lookahead : Nat) (startX : Int)
    (stream : List (List Char)) (ai : List (List Char) → Int → Except String Int)
    (W : Nat) (_hlh : 1 ≤ lookahead) (hw : ∀ r ∈ stream, r.length = W) :
    ∃ res, run_game lookahead startX stream ai = Except.ok res ∧
      res.ticks ≤ stream.length ∧
      (stream = [] → res.ticks = 0 ∧ res.outcome = Outcome.exhausted) := by
  cases stream with
  | nil => exact ⟨_, rfl, by decide, fun _ => ⟨by decide, by decide⟩⟩
  | cons first rest0 =>
    by_cases h0 : first.length = 0
    · refine ⟨emptyRunResult, ?_, by simp [emptyRunResult], by simp⟩
      simp only [run_game, if_pos h0]
    · have hw1 : 1 ≤ first.length := Nat.pos_of_ne_zero h0
      have hfw : first.length = W := hw first (by simp)
      have hbuf : ∀ q ∈ first :: rest0.take (lookahead - 1), q.length = first.length := by
        intro q hq
        rcases List.mem_cons.mp hq with hq | hq
        · rw [hq]
        · rw [hw q (by simp [List.take_subset _ _ hq]), hfw]
      have hrest : ∀ q ∈ rest0.drop (lookahead - 1), q.length = first.length := by
        intro q hq
        rw [hw q (by simp [List.drop_subset _ _ hq]), hfw]
      obtain ⟨res, hres⟩ := runLoop_ok ai first.length hw1 (rest0.drop (lookahead - 1))
        { buffer := first :: rest0.take (lookahead - 1), x := engineStartX startX,
          movements := 0, path := [], logs := [], moves := [], xs := [], ticks := 0 }
        hbuf hrest
      refine ⟨res, ?_, ?_, by simp⟩
      · simp only [run_game, if_neg h0]
        exact hres
      · have hm := runLoop_master ai first.length hw1 _ _ _ hres (by simp)
        rcases hm with ⟨h1, _, _, _⟩
        have hdrop : (rest0.drop (lookahead - 1)).length = rest0.length - (lookahead - 1) :=
          List.length_drop _ _
        simp at h1 ⊢
        omega

/-- Witness for C7 at a concrete two-row stream and the Stay planner. -/
theorem claim7_termination_witness :
    ∃ res, run_game 5 2 [['.', '.'], ['.', '.']] stayAI = Except.ok res ∧
      res.ticks ≤ ([['.', '.'], ['.', '.']] : List (List Char)).length ∧
      (([['.', '.'], ['.', '.']] : List (List Char)) = [] →
        res.ticks = 0 ∧ res.outcome = Outcome.exhausted) :=
  claim7_termination 5 2 [['.', '.'], ['.', '.']] stayAI 2 (by decide) (by decide)

/-! ### Claim C6 — bounds safety -/

/-- C6 (confirmed): whatever the planner does — raising, or returning
arbitrary out-of-range values — after every tick the car column recorded
in the trace lies in `[0, W)` where `W` is the width of the stream's
first row: out-of-range moves are coerced to `0` and the updated column
is clamped to `[0, W-1]`. -/
theorem claim6_bounds (lookahead : Nat) (startX : Int) (stream : List (List Char))
    (ai : List (List Char) → Int → Except String Int) (res : RunResult)
    (hrun : run_game lookahead startX stream ai = Except.ok res) :
    ∀ x ∈ res.xs, 0 ≤ x ∧ x < ((stream.headD []).length : Int) := by
  cases stream with
  | nil =>
    simp only [run_game] at hrun
    cases hrun
    intro x hx
    simp [emptyRunResult] at hx
  | cons first rest0 =>
    by_cases h0 : first.length = 0
    · simp only [run_game, if_pos h0] at hrun
      cases hrun
      intro x hx
      simp [emptyRunResult] at hx
    · simp only [run_game, if_neg h0] at hrun
      have hw1 : 1 ≤ first.length := Nat.pos_of_ne_zero h0
      have hm := runLoop_master ai first.length hw1 _ _ _ hrun (by simp)
      rcases hm with ⟨_, _, ⟨t, hxs, hbnd⟩, _⟩
      intro x hx
      rw [hxs] at hx
      simp only [List.nil_append] at hx
      simpa using hbnd x hx

/-- Witness for C6: a one-row run whose trace is `[1]`, inside `[0, 2)`. -/
theorem claim6_bounds_witness :
    (0 : Int) ≤ 1 ∧ (1 : Int) < ((([['.', '.']] : List (List Char)).headD []).length : Int) :=
  claim6_bounds 5 2 [['.', '.']] stayAI stayRow2Result (by rfl) 1 (by simp [stayRow2Result])

/-! ### Claim C3 — window handling at stream exhaustion -/

/-- C3 counterexample: on a 3-row obstacle-free stream with lookahead 3
the engine returns Exhausted after a single tick with *two rows still in
the lookahead window* — the window is not drained, and Exhausted is not
reached with an empty window. -/
theorem claim3_counterexample :
    run_game 3 2 (List.replicate 3 ['.', '.']) stayAI = Except.ok stayRows3Result ∧
    stayRows3Result.outcome = Outcome.exhausted ∧
    stayRows3Result.finalBuffer.length = 2 ∧ stayRows3Result.ticks = 1 := by
  exact ⟨rfl, rfl, rfl, rfl⟩

/-- C3, amended: after each survived tick the engine pops the consumed
row and appends the next stream row if available; but when the stream is
exhausted it returns immediately (Exhausted) instead of draining the
window: exactly `len(stream) - min(lookahead, len(stream)) + 1` ticks are
executed and `min(lookahead, len(stream)) - 1` rows are left unsimulated
in the window. -/
theorem claim3_no_drain (lookahead : Nat) (startX : Int)
    (first : List Char) (rest0 : List (List Char))
    (ai : List (List Char) → Int → Except String Int) (res : RunResult)
    (hlh : 1 ≤ lookahead) (h0 : first.length ≠ 0)
    (hrun : run_game lookahead startX (first :: rest0) ai = Except.ok res)
    (hex : res.outcome = Outcome.exhausted) :
    res.ticks + min lookahead (first :: rest0).length = (first :: rest0).length + 1 ∧
    res.finalBuffer.length + 1 = min lookahead (first :: rest0).length := by
  simp only [run_game, if_neg h0] at hrun
  have hw1 : 1 ≤ first.length := Nat.pos_of_ne_zero h0
  have hm := runLoop_master ai first.length hw1 _ _ _ hrun (by simp)
  rcases hm with ⟨_, h2, _, _⟩
  rcases h2 hex with ⟨h2a, h2b⟩
  have hlen1 : (rest0.drop (lookahead - 1)).length = rest0.length - (lookahead - 1) :=
    List.length_drop _ _
  have hlen2 : (rest0.take (lookahead - 1)).length = min (lookahead - 1) rest0.length :=
    List.length_take _ _
  simp at h2a h2b ⊢
  omega

/-- Witness for the amended C3: the run of the counterexample, with
`ticks = 1` and two window rows left over. -/
theorem claim3_no_drain_witness :
    (1 : Nat) + min 3 ((['.', '.'] :: List.replicate 2 ['.', '.']
        : List (List Char))).length
      = ((['.', '.'] :: List.replicate 2 ['.', '.'] : List (List Char))).length + 1 ∧
    (2 : Nat) + 1 = min 3 ((['.', '.'] :: List.replicate 2 ['.', '.']
        : List (List Char))).length :=
  claim3_no_drain 3 2 ['.', '.'] (List.replicate 2 ['.', '.']) stayAI stayRows3Result
    (by decide) (by decide) (by rfl) rfl

/-! ### Claim C9 — planner-fault handling -/

/-- Coercing an already-coerced move is the identity. -/
theorem coerce_coerce (v : Int) :
    (if (if v < -1 ∨ 1 < v then (0 : Int) else v) < -1
        ∨ 1 < (if v < -1 ∨ 1 < v then (0 : Int) else v) then (0 : Int)
      else if v < -1 ∨ 1 < v then (0 : Int) else v)
    = (if v < -1 ∨ 1 < v then (0 : Int) else v) := by
  split_ifs <;> omega

/-- Two ticks that differ only in the planner's raw answer (same effective
move after coercion) and in the `path`/`logs` accumulators produce results
that differ at most in `path`/`logs`. -/
theorem tickCore_faults (width : Nat) (buf : List (List Char)) (x0 : Int)
    (mvs : Nat) (movl xsl : List Int) (tk : Nat)
    (pa pb : List Int) (la lb : List String) (p1 p2 : List Int)
    (l1 l2 : List String) (m1 m2 : Int)
    (hm : (if m1 < -1 ∨ 1 < m1 then (0 : Int) else m1)
        = (if m2 < -1 ∨ 1 < m2 then (0 : Int) else m2)) :
    (∃ r q : RunResult,
      tickCore width ⟨buf, x0, mvs, p1, l1, movl, xsl, tk⟩ m1 pa la = Sum.inl r ∧
      tickCore width ⟨buf, x0, mvs, p2, l2, movl, xsl, tk⟩ m2 pb lb = Sum.inl q ∧
      r.movements = q.movements ∧ r.outcome = q.outcome ∧ r.moves = q.moves ∧
      r.xs = q.xs ∧ r.ticks = q.ticks ∧ r.finalBuffer = q.finalBuffer) ∨
    (∃ (buf' : List (List Char)) (x' : Int) (mv' : Nat) (ml' xl' : List Int) (tk' : Nat),
      tickCore width ⟨buf, x0, mvs, p1, l1, movl, xsl, tk⟩ m1 pa la
        = Sum.inr ⟨buf', x', mv', pa, la, ml', xl', tk'⟩ ∧
      tickCore width ⟨buf, x0, mvs, p2, l2, movl, xsl, tk⟩ m2 pb lb
        = Sum.inr ⟨buf', x', mv', pb, lb, ml', xl', tk'⟩) := by
  simp only [tickCore]
  rw [← hm]
  by_cases hfree : is_free ((buf.headD []).getD
      (max 0 (min ((width : Int) - 1)
        (x0 + if m1 < -1 ∨ 1 < m1 then (0 : Int) else m1))).toNat ' ') = true
  · rw [if_pos hfree, if_pos hfree]
    exact Or.inr ⟨buf.tail, _, _, _, _, _, rfl, rfl⟩
  · rw [if_neg hfree, if_neg hfree]
    exact Or.inl ⟨_, _, rfl, rfl, rfl, rfl, rfl, rfl, rfl, rfl⟩

/-- Replacing a planner by its fault-free shadow changes only the `path`
and `logs` the loop accumulates: movements, outcome, effective moves,
column trace, tick count and final window coincide, and both runs fail
(inconsistent width) together with the same message. -/
theorem runLoop_sanitize (ai : List (List Char) → Int → Except String Int) (width : Nat) :
    ∀ (rest buf : List (List Char)) (x0 : Int) (mvs : Nat)
      (movl xsl : List Int) (tk : Nat) (p1 p2 : List Int) (l1 l2 : List String),
      (∃ e, runLoop ai width rest ⟨buf, x0, mvs, p1, l1, movl, xsl, tk⟩ = Except.error e ∧
        runLoop (sanitizeAI ai) width rest ⟨buf, x0, mvs, p2, l2, movl, xsl, tk⟩
          = Except.error e) ∨
      (∃ r q, runLoop ai width rest ⟨buf, x0, mvs, p1, l1, movl, xsl, tk⟩ = Except.ok r ∧
        runLoop (sanitizeAI ai) width rest ⟨buf, x0, mvs, p2, l2, movl, xsl, tk⟩
          = Except.ok q ∧
        r.movements = q.movements ∧ r.outcome = q.outcome ∧ r.moves = q.moves ∧
        r.xs = q.xs ∧ r.ticks = q.ticks ∧ r.finalBuffer = q.finalBuffer) := by
  intro rest
  induction rest with
  | nil =>
    intro buf x0 mvs movl xsl tk p1 p2 l1 l2
    by_cases hchk : buf.any (fun r => r.length != width) = true
    · exact Or.inl ⟨"Inconsistent row width detected in stream.",
        by rw [runLoop]; simp [tick, hchk],
        by rw [runLoop]; simp [tick, hchk]⟩
    rcases hai : ai buf x0 with e | v
    · have htick1 : tick ai width ⟨buf, x0, mvs, p1, l1, movl, xsl, tk⟩
          = Except.ok (tickCore width ⟨buf, x0, mvs, p1, l1, movl, xsl, tk⟩
              0 p1 (l1 ++ [e])) := by
        simp only [tick]
        rw [if_neg hchk, hai]
      have htick2 : tick (sanitizeAI ai) width ⟨buf, x0, mvs, p2, l2, movl, xsl, tk⟩
          = Except.ok (tickCore width ⟨buf, x0, mvs, p2, l2, movl, xsl, tk⟩
              0 (p2 ++ [0]) l2) := by
        simp only [tick, sanitizeAI]
        rw [if_neg hchk, hai]
      rcases tickCore_faults width buf x0 mvs movl xsl tk p1 (p2 ++ [0]) (l1 ++ [e]) l2
          p1 p2 l1 l2 0 0 rfl with
        ⟨r, q, hc1, hc2, hs⟩ | ⟨buf', x', mv', ml', xl', tk', hc1, hc2⟩
      · exact Or.inr ⟨r, q, by rw [runLoop, htick1, hc1] <;> rfl, by rw [runLoop, htick2, hc2] <;> rfl, hs⟩
      · exact Or.inr ⟨⟨mv', p1, Outcome.exhausted, l1 ++ [e], ml', xl', tk', buf'⟩,
          ⟨mv', p2 ++ [0], Outcome.exhausted, l2, ml', xl', tk', buf'⟩,
          by rw [runLoop, htick1, hc1] <;> rfl, by rw [runLoop, htick2, hc2] <;> rfl,
          rfl, rfl, rfl, rfl, rfl, rfl⟩
    · have htick1 : tick ai width ⟨buf, x0, mvs, p1, l1, movl, xsl, tk⟩
          = Except.ok (tickCore width ⟨buf, x0, mvs, p1, l1, movl, xsl, tk⟩
              v (p1 ++ [v]) l1) := by
        simp only [tick]
        rw [if_neg hchk, hai]
      have htick2 : tick (sanitizeAI ai) width ⟨buf, x0, mvs, p2, l2, movl, xsl, tk⟩
          = Except.ok (tickCore width ⟨buf, x0, mvs, p2, l2, movl, xsl, tk⟩
              (if v < -1 ∨ 1 < v then (0 : Int) else v)
              (p2 ++ [if v < -1 ∨ 1 < v then (0 : Int) else v]) l2) := by
        simp only [tick, sanitizeAI]
        rw [if_neg hchk, hai]
      rcases tickCore_faults width buf x0 mvs movl xsl tk (p1 ++ [v])
          (p2 ++ [if v < -1 ∨ 1 < v then (0 : Int) else v]) l1 l2
          p1 p2 l1 l2 v (if v < -1 ∨ 1 < v then (0 : Int) else v)
          (coerce_coerce v).symm with
        ⟨r, q, hc1, hc2, hs⟩ | ⟨buf', x', mv', ml', xl', tk', hc1, hc2⟩
      · exact Or.inr ⟨r, q, by rw [runLoop, htick1, hc1] <;> rfl, by rw [runLoop, htick2, hc2] <;> rfl, hs⟩
      · exact Or.inr ⟨⟨mv', p1 ++ [v], Outcome.exhausted, l1, ml', xl', tk', buf'⟩,
          ⟨mv', p2 ++ [if v < -1 ∨ 1 < v then (0 : Int) else v], Outcome.exhausted,
            l2, ml', xl', tk', buf'⟩,
          by rw [runLoop, htick1, hc1] <;> rfl, by rw [runLoop, htick2, hc2] <;> rfl,
          rfl, rfl, rfl, rfl, rfl, rfl⟩
  | cons row rest' ih =>
    intro buf x0 mvs movl xsl tk p1 p2 l1 l2
    by_cases hchk : buf.any (fun r => r.length != width) = true
    · exact Or.inl ⟨"Inconsistent row width detected in stream.",
        by rw [runLoop]; simp [tick, hchk],
        by rw [runLoop]; simp [tick, hchk]⟩
    rcases hai : ai buf x0 with e | v
    · have htick1 : tick ai width ⟨buf, x0, mvs, p1, l1, movl, xsl, tk⟩
          = Except.ok (tickCore width ⟨buf, x0, mvs, p1, l1, movl, xsl, tk⟩
              0 p1 (l1 ++ [e])) := by
        simp only [tick]
        rw [if_neg hchk, hai]
      have htick2 : tick (sanitizeAI ai) width ⟨buf, x0, mvs, p2, l2, movl, xsl, tk⟩
          = Except.ok (tickCore width ⟨buf, x0, mvs, p2, l2, movl, xsl, tk⟩
              0 (p2 ++ [0]) l2) := by
        simp only [tick, sanitizeAI]
        rw [if_neg hchk, hai]
      rcases tickCore_faults width buf x0 mvs movl xsl tk p1 (p2 ++ [0]) (l1 ++ [e]) l2
          p1 p2 l1 l2 0 0 rfl with
        ⟨r, q, hc1, hc2, hs⟩ | ⟨buf', x', mv', ml', xl', tk', hc1, hc2⟩
      · exact Or.inr ⟨r, q, by rw [runLoop, htick1, hc1] <;> rfl, by rw [runLoop, htick2, hc2] <;> rfl, hs⟩
      · rcases ih (buf' ++ [row]) x' mv' ml' xl' tk' p1 (p2 ++ [0]) (l1 ++ [e]) l2 with
          ⟨e', h1, h2⟩ | ⟨r, q, h1, h2, hs⟩
        · exact Or.inl ⟨e', by rw [runLoop, htick1, hc1]; exact h1,
            by rw [runLoop, htick2, hc2]; exact h2⟩
        · exact Or.inr ⟨r, q, by rw [runLoop, htick1, hc1]; exact h1,
            by rw [runLoop, htick2, hc2]; exact h2, hs⟩
    · have htick1 : tick ai width ⟨buf, x0, mvs, p1, l1, movl, xsl, tk⟩
          = Except.ok (tickCore width ⟨buf, x0, mvs, p1, l1, movl, xsl, tk⟩
              v (p1 ++ [v]) l1) := by
        simp only [tick]
        rw [if_neg hchk, hai]
      have htick2 : tick (sanitizeAI ai) width ⟨buf, x0, mvs, p2, l2, movl, xsl, tk⟩
          = Except.ok (tickCore width ⟨buf, x0, mvs, p2, l2, movl, xsl, tk⟩
              (if v < -1 ∨ 1 < v then (0 : Int) else v)
              (p2 ++ [if v < -1 ∨ 1 < v then (0 : Int) else v]) l2) := by
        simp only [tick, sanitizeAI]
        rw [if_neg hchk, hai]
      rcases tickCore_faults width buf x0 mvs movl xsl tk (p1 ++ [v])
          (p2 ++ [if v < -1 ∨ 1 < v then (0 : Int) else v]) l1 l2
          p1 p2 l1 l2 v (if v < -1 ∨ 1 < v then (0 : Int) else v)
          (coerce_coerce v).symm with
        ⟨r, q, hc1, hc2, hs⟩ | ⟨buf', x', mv', ml', xl', tk', hc1, hc2⟩
      · exact Or.inr ⟨r, q, by rw [runLoop, htick1, hc1] <;> rfl, by rw [runLoop, htick2, hc2] <;> rfl, hs⟩
      · rcases ih (buf' ++ [row]) x' mv' ml' xl' tk' (p1 ++ [v])
            (p2 ++ [if v < -1 ∨ 1 < v then (0 : Int) else v]) l1 l2 with
          ⟨e', h1, h2⟩ | ⟨r, q, h1, h2, hs⟩
        · exact Or.inl ⟨e', by rw [runLoop, htick1, hc1]; exact h1,
            by rw [runLoop, htick2, hc2]; exact h2⟩
        · exact Or.inr ⟨r, q, by rw [runLoop, htick1, hc1]; exact h1,
            by rw [runLoop, htick2, hc2]; exact h2, hs⟩

/-- C9, amended: a planner fault — an exception or an out-of-range return
value — is never fatal: the run proceeds exactly as with the fault-free
shadow planner (`sanitizeAI`) that plays Stay in place of each fault, with
identical movements, outcome, effective moves, column trace, tick count
and final window.  Only the returned `path` and the printed logs differ:
an exception is logged and leaves no path entry, while an out-of-range
value is coerced *silently* (no log) and its raw value is recorded in the
path (see the counterexample). -/
theorem claim9_fault_recovery (lookahead : Nat) (startX : Int)
    (stream : List (List Char)) (ai : List (List Char) → Int → Except String Int) :
    (∃ e, run_game lookahead startX stream ai = Except.error e ∧
      run_game lookahead startX stream (sanitizeAI ai) = Except.error e) ∨
    (∃ r q, run_game lookahead startX stream ai = Except.ok r ∧
      run_game lookahead startX stream (sanitizeAI ai) = Except.ok q ∧
      r.movements = q.movements ∧ r.outcome = q.outcome ∧ r.moves = q.moves ∧
      r.xs = q.xs ∧ r.ticks = q.ticks ∧ r.finalBuffer = q.finalBuffer) := by
  cases stream with
  | nil =>
    exact Or.inr ⟨emptyRunResult, emptyRunResult, rfl, rfl, rfl, rfl, rfl, rfl, rfl, rfl⟩
  | cons first rest0 =>
    by_cases h0 : first.length = 0
    · refine Or.inr ⟨emptyRunResult, emptyRunResult, ?_, ?_, rfl, rfl, rfl, rfl, rfl, rfl⟩ <;>
        simp only [run_game, if_pos h0]
    · rcases runLoop_sanitize ai first.length (rest0.drop (lookahead - 1))
          (first :: rest0.take (lookahead - 1)) (engineStartX startX) 0 [] [] 0 [] [] [] [] with
        ⟨e, h1, h2⟩ | ⟨r, q, h1, h2, hs⟩
      · refine Or.inl ⟨e, ?_, ?_⟩ <;> simp only [run_game, if_neg h0]
        · exact h1
        · exact h2
      · refine Or.inr ⟨r, q, ?_, ?_, hs⟩ <;> simp only [run_game, if_neg h0]
        · exact h1
        · exact h2

/-- C9 counterexample: a planner returning the out-of-range value 5 on a
one-row track.  The move is coerced to Stay and the run continues
(non-fatal), but no fault is logged — `logs = []`, the engine only prints
on exceptions — and the raw value 5, not Stay, is recorded in the
returned path, while the effective move trace records the coerced 0. -/
theorem claim9_counterexample :
    run_game 5 2 [['.', '.', '.', '.', '.']] (fun _ _ => Except.ok 5)
      = Except.ok { movements := 0, path := [5], outcome := Outcome.exhausted, logs := [], moves := [0], xs := [2], ticks := 1, finalBuffer := [] } := by
  rfl

/-- Witness for the amended C9 at a concrete faulty planner. -/
theorem claim9_fault_recovery_witness :
    (∃ e, run_game 5 2 [['.', '.', '.', '.', '.']] (fun _ _ => Except.ok 5) = Except.error e ∧
      run_game 5 2 [['.', '.', '.', '.', '.']] (sanitizeAI (fun _ _ => Except.ok 5))
        = Except.error e) ∨
    (∃ r q, run_game 5 2 [['.', '.', '.', '.', '.']] (fun _ _ => Except.ok 5) = Except.ok r ∧
      run_game 5 2 [['.', '.', '.', '.', '.']] (sanitizeAI (fun _ _ => Except.ok 5))
        = Except.ok q ∧
      r.movements = q.movements ∧ r.outcome = q.outcome ∧ r.moves = q.moves ∧
      r.xs = q.xs ∧ r.ticks = q.ticks ∧ r.finalBuffer = q.finalBuffer) :=
  claim9_fault_recovery 5 2 [['.', '.', '.', '.', '.']] (fun _ _ => Except.ok 5)

/-! ### Claim C8 — the two scoring policies -/

theorem getLastD_mem {α : Type} (l : List α) (d : α) (h : l ≠ []) : l.getLastD d ∈ l := by
  rw [List.getLastD_eq_getLast?, List.getLast?_eq_getLast _ h]
  exact List.getLast_mem h

/-- Every dodge the student engine counts corresponds to an obstacle row
it checked at the tail of the window, so the count is bounded by the
obstacle rows among the checked rows. -/
theorem studentRunGo_le (ai : List (List Char) → Int → Int) :
    ∀ (rest buffer : List (List Char)) (x : Int) (dodges d : Nat),
      studentRunGo ai rest buffer x dodges = Except.ok d →
      d ≤ dodges
        + ((buffer.getLastD [] :: rest).filter (fun r => r.contains '#')).length := by
  intro rest
  induction rest with
  | nil =>
    intro buffer x dodges d h
    simp only [studentRunGo] at h
    cases h
    exact Nat.le_add_right _ _
  | cons row rest' ih =>
    intro buffer x dodges d h
    simp only [studentRunGo] at h
    by_cases hobs : (buffer.getLastD []).contains '#' = true
    · rw [if_pos hobs] at h
      split at h
      · simp at h
      · rename_i c heq
        by_cases hc : c = '#'
        · rw [if_pos hc] at h
          cases h
          exact Nat.le_add_right _ _
        · rw [if_neg hc] at h
          have hb := ih _ _ _ _ h
          rw [List.getLastD_concat] at hb
          simp only [List.filter_cons, hobs] at hb ⊢
          simp at hb ⊢
          omega
    · rw [if_neg hobs] at h
      have hb := ih _ _ _ _ h
      rw [List.getLastD_concat] at hb
      simp only [List.filter_cons, hobs] at hb ⊢
      simp at hb ⊢
      omega

/-- C8, amended: the two scoring policies live in two *separate* engines
(not caller-selectable modes of one engine, and with different result
shapes): the solution engine counts movements — its counter is exactly
the number of nonzero effective moves, independent of row contents — and
returns `(movements, path)`; the student engine counts dodges — each
counted against the obstacle row at the *tail* of the window while the
stream still yields rows, so the count is bounded by the stream's
obstacle rows but does *not* count every entered survived obstacle row
(see the counterexample) — and returns a bare integer. -/
theorem claim8_two_counters :
    (∀ (lookahead : Nat) (startX : Int) (stream : List (List Char))
        (ai : List (List Char) → Int → Except String Int) (res : RunResult),
      run_game lookahead startX stream ai = Except.ok res →
      res.movements = (res.moves.filter (fun m => m ≠ 0)).length) ∧
    (∀ (stream : List (List Char)) (ai : List (List Char) → Int → Int)
        (startX : Int) (d : Nat),
      student_run_game stream ai startX = Except.ok d →
      d ≤ (stream.filter (fun r => r.contains '#')).length) := by
  constructor
  · intro lookahead startX stream ai res hrun
    cases stream with
    | nil =>
      simp only [run_game] at hrun
      cases hrun
      rfl
    | cons first rest0 =>
      by_cases h0 : first.length = 0
      · simp only [run_game, if_pos h0] at hrun
        cases hrun
        rfl
      · simp only [run_game, if_neg h0] at hrun
        have hw1 : 1 ≤ first.length := Nat.pos_of_ne_zero h0
        have hm := runLoop_master ai first.length hw1 _ _ _ hrun (by simp)
        rcases hm with ⟨_, _, _, ⟨tm, hmoves, hcount⟩⟩
        simp only [List.nil_append] at hmoves
        rw [hmoves, hcount]
        simp
  · intro stream ai startX d hrun
    rw [student_run_game] at hrun
    by_cases hlen : stream.length < 8
    · rw [if_pos hlen] at hrun
      cases hrun
      exact Nat.zero_le _
    · rw [if_neg hlen] at hrun
      have hb := studentRunGo_le ai _ _ _ _ _ hrun
      have htake : (stream.take 8) ≠ [] := by
        intro hcon
        have : (stream.take 8).length = 0 := by rw [hcon]; rfl
        rw [List.length_take] at this
        omega
      have hmem : (stream.take 8).getLastD [] ∈ stream.take 8 :=
        getLastD_mem _ _ htake
      have hsplit : stream = stream.take 8 ++ stream.drop 8 :=
        (List.take_append_drop 8 stream).symm
      rw [hsplit, List.filter_append, List.length_append]
      simp only [List.filter_cons, Nat.zero_add] at hb
      by_cases hob : ((stream.take 8).getLastD []).contains '#' = true
      · rw [if_pos hob, List.length_cons] at hb
        have h1 : 1 ≤ ((stream.take 8).filter (fun r => r.contains '#')).length :=
          List.length_pos.mpr (List.ne_nil_of_mem (List.mem_filter.mpr ⟨hmem, hob⟩))
        omega
      · rw [if_neg hob] at hb
        omega

/-- C8 counterexample: a nine-row stream whose only obstacle row is the
*first* entered row; the Stay planner survives every row (its column 3 is
never an obstacle), so dodge counting as claimed should yield 1 — but the
student engine returns 0, because it checks obstacle rows only at the
tail of its 8-row window while the stream still yields rows. -/
theorem claim8_counterexample :
    student_run_game (('#' :: List.replicate 9 '.')
        :: List.replicate 8 (List.replicate 10 '.')) studentStayAI 3 = Except.ok 0 ∧
    ((('#' :: List.replicate 9 '.') :: List.replicate 8 (List.replicate 10 '.')).filter
        (fun r => r.contains '#')).length = 1 ∧
    (∀ r ∈ ('#' :: List.replicate 9 '.') :: List.replicate 8 (List.replicate 10 '.'),
      r.getD 3 '.' ≠ '#') := by
  refine ⟨by rfl, by rfl, by decide⟩

/-- Witness for the amended C8: the movement-counting half applied to the
empty stream, and the dodge bound applied to the counterexample stream. -/
theorem claim8_two_counters_witness :
    emptyRunResult.movements
        = (emptyRunResult.moves.filter (fun m => m ≠ 0)).length ∧
    (0 : Nat) ≤ (((('#' :: List.replicate 9 '.')
        :: List.replicate 8 (List.replicate 10 '.')) : List (List Char)).filter
          (fun r => r.contains '#')).length :=
  ⟨claim8_two_counters.1 5 2 [] stayAI emptyRunResult rfl,
   claim8_two_counters.2 (('#' :: List.replicate 9 '.')
      :: List.replicate 8 (List.replicate 10 '.')) studentStayAI 3 0 (by rfl)⟩

/-! ### Claim C10 — the planner's undocumented window precondition -/

/-- C10 (confirmed): `choose_move` prunes candidate columns against the
fixed class width `AIwidth = Engine.W = 10` rather than the actual row
width, and indexes `visible_rows[depth]` without checking the window
length; consequently (i) a non-empty window shorter than `max_depth`
(here a single width-10 row with `max_depth = 5`) and (ii) a window of
rows narrower than 10 columns (here five width-2 rows) both make
`choose_move` raise an `IndexError` instead of returning a move, while a
full-size window does not. -/
theorem claim10_width_coupling :
    AIwidth = 10 ∧
    choose_move 5 [List.replicate 10 '.'] 5 = Except.error () ∧
    choose_move 5 (List.replicate 5 ['.', '.']) 1 = Except.error () ∧
    choose_move 5 (List.replicate 5 (List.replicate 10 '.')) 5 = Except.ok 0 :=
  ⟨rfl, rfl, rfl, rfl⟩

/-! ### Planner lemmas for C4 and C5 -/

theorem except_bind_ok {ε α β : Type} (a : α) (f : α → Except ε β) :
    (Except.ok a : Except ε α).bind f = f a := rfl

theorem bind_ok_exists {α β : Type} {A : Except Unit α} {f : α → Except Unit β}
    (h1 : ∃ a, A = Except.ok a) (h2 : ∀ a, ∃ v, f a = Except.ok v) :
    ∃ v, A.bind f = Except.ok v := by
  rcases h1 with ⟨a, ha⟩
  rw [ha]
  exact h2 a

/-- On a row of the planner's width, one move candidate never raises. -/
theorem moveGate_ok {width : Nat} {row : List Char} (hrow : row.length = width)
    (curX : Int) (cost : Nat) (move : Int) :
    ∃ g, moveGate width row curX cost move = Except.ok g := by
  unfold moveGate
  split
  · exact ⟨none, rfl⟩
  · rename_i hb
    push_neg at hb
    split
    · rename_i heq
      rw [List.get?_eq_none] at heq
      omega
    · rename_i c heq
      split
      · exact ⟨none, rfl⟩
      · exact ⟨some _, rfl⟩

/-- On a window of full-width rows that is at least `remaining + depth`
rows long, the depth search never raises. -/
theorem search_branch_ok {width : Nat} {rows : List (List Char)}
    (hw : ∀ r ∈ rows, r.length = width) :
    ∀ (remaining : Nat) (depth : Nat) (curX : Int) (cost : Nat),
      remaining + depth ≤ rows.length →
      ∃ v, search_branch width rows remaining depth curX cost = Except.ok v := by
  intro remaining
  induction remaining with
  | zero =>
    intro depth curX cost _
    exact ⟨some cost, rfl⟩
  | succ rem ih =>
    intro depth curX cost hle
    rw [search_branch]
    rcases hrow : rows.get? depth with _ | row
    · rw [List.get?_eq_none] at hrow
      omega
    · have hrl : row.length = width := hw row (List.get?_mem hrow)
      refine bind_ok_exists (moveGate_ok hrl curX cost (-1)) fun g1 => ?_
      refine bind_ok_exists ?_ fun s1 => ?_
      · cases g1 with
        | none => exact ⟨none, rfl⟩
        | some p => exact ih (depth + 1) p.1 p.2 (by omega)
      refine bind_ok_exists (moveGate_ok hrl curX cost 0) fun g2 => ?_
      refine bind_ok_exists ?_ fun s2 => ?_
      · cases g2 with
        | none => exact ⟨none, rfl⟩
        | some p => exact ih (depth + 1) p.1 p.2 (by omega)
      refine bind_ok_exists (moveGate_ok hrl curX cost 1) fun g3 => ?_
      refine bind_ok_exists ?_ fun s3 => ?_
      · cases g3 with
        | none => exact ⟨none, rfl⟩
        | some p => exact ih (depth + 1) p.1 p.2 (by omega)
      exact ⟨_, rfl⟩

/-- On a non-empty full-width window of at least `max_depth` rows, a first
move never raises. -/
theorem firstCost_ok {maxDepth : Nat} {rows : List (List Char)}
    (hne : rows ≠ []) (hw : ∀ r ∈ rows, r.length = AIwidth)
    (hd : maxDepth ≤ rows.length) (row0 : List Char) (carX m : Int) :
    ∃ v, firstCost maxDepth rows row0 carX m = Except.ok v := by
  have hpos : 0 < rows.length := List.length_pos.mpr hne
  rw [firstCost]
  split
  · exact ⟨none, rfl⟩
  · split
    · exact ⟨none, rfl⟩
    · exact search_branch_ok hw (maxDepth - 1) 1 _ _ (by omega)

/-- Evaluation of one step of `choose_move`'s best-candidate fold. -/
theorem chooseStep_ok (carX : Int) (st : Option Nat × Int) (m : Int)
    (v : Option Nat) (res : Except Unit (Option Nat)) (hres : res = Except.ok v) :
    chooseStep carX st m res = Except.ok (stepVal carX st m v) := by
  subst hres
  cases v with
  | none => rfl
  | some c =>
    show (if is_better_move c m st.1 st.2 carX then Except.ok ((some c : Option Nat), m)
        else Except.ok st)
      = Except.ok (stepVal carX st m (some c))
    rw [stepVal]
    split <;> rfl

/-- Invariant preservation for the fold: the running best is either still
the initial `(inf, Stay)` state or a surviving first move with its cost;
once a surviving candidate has been seen the best stays surviving. -/
theorem chooseStep_inv (maxDepth : Nat) (rows : List (List Char)) (row0 : List Char)
    (carX : Int) (st : Option Nat × Int) (m : Int) (v : Option Nat)
    (hv : firstCost maxDepth rows row0 carX m = Except.ok v)
    (hinv : st.1 = none ∧ st.2 = 0 ∨
      ∃ c, st.1 = some c ∧ firstCost maxDepth rows row0 carX st.2 = Except.ok (some c)) :
    ∃ st', chooseStep carX st m (firstCost maxDepth rows row0 carX m) = Except.ok st' ∧
      (st'.1 = none ∧ st'.2 = 0 ∨
        ∃ c, st'.1 = some c ∧ firstCost maxDepth rows row0 carX st'.2
          = Except.ok (some c)) ∧
      (v ≠ none → st'.1 ≠ none) ∧ (st.1 ≠ none → st'.1 ≠ none) := by
  rw [chooseStep_ok carX st m v _ hv]
  cases v with
  | none =>
    exact ⟨st, rfl, hinv, fun h => absurd rfl h, fun h => h⟩
  | some c =>
    by_cases hb : is_better_move c m st.1 st.2 carX = true
    · refine ⟨(some c, m), by rw [stepVal, if_pos hb], Or.inr ⟨c, rfl, hv⟩, ?_, ?_⟩ <;>
        exact fun _ => by simp
    · have hst : st.1 ≠ none := by
        intro hn
        rw [hn] at hb
        exact hb rfl
      exact ⟨st, by rw [stepVal, if_neg hb], hinv, fun _ => hst, fun _ => hst⟩

/-! ### Claim C4 — planner soundness -/

/-- C4 (confirmed): on a full-width window (the planner's class width 10)
with at least `max_depth` rows, if at least one of the three first moves
has a collision-free continuation surviving to the search horizon, then
`choose_move` returns a first move that has a surviving continuation — a
first move all of whose continuations collide is never returned while a
surviving alternative exists. -/
theorem claim4_planner_soundness (maxDepth : Nat) (rows : List (List Char)) (carX : Int)
    (hne : rows ≠ [])
    (hw : ∀ r ∈ rows, r.length = AIwidth)
    (hd : maxDepth ≤ rows.length)
    (hex : ∃ m ∈ ([-1, 0, 1] : List Int), survivesFirst maxDepth rows carX m) :
    ∃ mv, choose_move maxDepth rows carX = Except.ok mv ∧
      survivesFirst maxDepth rows carX mv := by
  obtain ⟨row0, rest, rfl⟩ : ∃ r t, rows = r :: t := by
    cases rows with
    | nil => exact absurd rfl hne
    | cons a t => exact ⟨a, t, rfl⟩
  obtain ⟨v1, hv1⟩ := firstCost_ok hne hw hd row0 carX (-1)
  obtain ⟨v2, hv2⟩ := firstCost_ok hne hw hd row0 carX 0
  obtain ⟨v3, hv3⟩ := firstCost_ok hne hw hd row0 carX 1
  obtain ⟨s1, hs1, hinv1, himp1, hkeep1⟩ :=
    chooseStep_inv maxDepth (row0 :: rest) row0 carX (none, 0) (-1) v1 hv1 (Or.inl ⟨rfl, rfl⟩)
  obtain ⟨s2, hs2, hinv2, himp2, hkeep2⟩ :=
    chooseStep_inv maxDepth (row0 :: rest) row0 carX s1 0 v2 hv2 hinv1
  obtain ⟨s3, hs3, hinv3, himp3, hkeep3⟩ :=
    chooseStep_inv maxDepth (row0 :: rest) row0 carX s2 1 v3 hv3 hinv2
  have hcm : choose_move maxDepth (row0 :: rest) carX = Except.ok s3.2 := by
    show (chooseStep carX (none, 0) (-1)
        (firstCost maxDepth (row0 :: rest) row0 carX (-1))).bind
        (fun s1 => (chooseStep carX s1 0
            (firstCost maxDepth (row0 :: rest) row0 carX 0)).bind
          fun s2 => (chooseStep carX s2 1
              (firstCost maxDepth (row0 :: rest) row0 carX 1)).bind
            fun s3 => Except.ok s3.2)
      = Except.ok s3.2
    rw [hs1, except_bind_ok, hs2, except_bind_ok, hs3, except_bind_ok]
  have hne3 : s3.1 ≠ none := by
    rcases hex with ⟨m, hm, c, hsurv⟩
    simp only [survivesFirst, List.headD_cons] at hsurv
    simp only [List.mem_cons, List.mem_singleton] at hm
    rcases hm with rfl | rfl | rfl | huh
    · rw [hv1] at hsurv
      have : v1 = some c := Except.ok.inj hsurv
      exact hkeep3 (hkeep2 (himp1 (by simp [this])))
    · rw [hv2] at hsurv
      have : v2 = some c := Except.ok.inj hsurv
      exact hkeep3 (himp2 (by simp [this]))
    · rw [hv3] at hsurv
      have : v3 = some c := Except.ok.inj hsurv
      exact himp3 (by simp [this])
    · simp at huh
  rcases hinv3 with ⟨h, _⟩ | ⟨c, _, hsurv⟩
  · exact absurd h hne3
  · exact ⟨s3.2, hcm, c, hsurv⟩

/-- Witness for C4 on a concrete obstacle-free 2×10 window. -/
theorem claim4_planner_soundness_witness :
    ∃ mv, choose_move 2 [List.replicate 10 '.', List.replicate 10 '.'] 5 = Except.ok mv ∧
      survivesFirst 2 [List.replicate 10 '.', List.replicate 10 '.'] 5 mv :=
  claim4_planner_soundness 2 [List.replicate 10 '.', List.replicate 10 '.'] 5
    (by decide) (by decide) (by decide) ⟨0, by decide, 0, by rfl⟩

/-! ### Claim C5 — tie-break policy -/

/-- Against the initial `inf` best, any candidate wins. -/
theorem is_better_none (c : Nat) (m bm cx : Int) :
    is_better_move c m none bm cx = true := rfl

/-- A strictly more expensive candidate never wins. -/
theorem is_better_cost_lt (c0 c : Nat) (cm bm cx : Int) (h : c < c0) :
    is_better_move c0 cm (some c) bm cx = false := by
  simp only [is_better_move]
  rw [if_neg (by omega), if_pos h]

/-- On a cost tie (or with lower cost), Stay beats a non-Stay best. -/
theorem is_better_stay (c0 c1 : Nat) (bm cx : Int) (h : c0 ≤ c1) (hbm : bm ≠ 0) :
    is_better_move c0 0 (some c1) bm cx = true := by
  simp only [is_better_move]
  by_cases h1 : c0 < c1
  · rw [if_pos h1]
  · rw [if_neg h1, if_neg (by omega), if_pos (by simp [hbm])]

/-- A lateral candidate never replaces a Stay best of no larger cost. -/
theorem is_better_vs_stay (c3 c0 : Nat) (cm cx : Int) (hcm0 : cm ≠ 0) (h : c0 ≤ c3) :
    is_better_move c3 cm (some c0) 0 cx = false := by
  simp only [is_better_move]
  by_cases h2 : c0 < c3
  · rw [if_neg (by omega), if_pos h2]
  · rw [if_neg (by omega), if_neg h2, if_neg (by simp [hcm0]), if_pos (by simp [hcm0])]

/-- Between two equal-cost laterals from Left to Right, the centre
distance decides (`AIwidth = 10`, centre 4.5, scaled by 2). -/
theorem is_better_right_vs_left (c : Nat) (cx : Int) :
    is_better_move c 1 (some c) (-1) cx
      = decide ((2 * (cx + 1) - ((AIwidth : Int) - 1)).natAbs
          < (2 * (cx + -1) - ((AIwidth : Int) - 1)).natAbs) := by
  simp only [is_better_move]
  rw [if_neg (by omega), if_neg (by omega), if_neg (by decide), if_neg (by decide)]

/-- C5 (confirmed): on a full-width window with at least `max_depth`
rows: (i) whenever Stay survives with a cost no larger than every
surviving lateral's cost, `choose_move` returns Stay; (ii) whenever both
laterals survive with one same cost and Stay does not beat it (it either
does not survive or costs strictly more), `choose_move` returns whichever
lateral's resulting column is strictly closer to the centre
`(W - 1) / 2` with `W = AIwidth = 10` (exact comparison, scaled by 2),
and keeps Left on a distance tie — the fixed iteration order
`(-1, 0, 1)`.  As a pure function of the window and column the planner
is deterministic. -/
theorem claim5_tiebreak (maxDepth : Nat) (rows : List (List Char)) (carX : Int)
    (hne : rows ≠ [])
    (hw : ∀ r ∈ rows, r.length = AIwidth)
    (hd : maxDepth ≤ rows.length) :
    (∀ c0, firstCost maxDepth rows (rows.headD []) carX 0 = Except.ok (some c0) →
      (∀ m ∈ ([-1, 1] : List Int), ∀ c,
        firstCost maxDepth rows (rows.headD []) carX m = Except.ok (some c) → c0 ≤ c) →
      choose_move maxDepth rows carX = Except.ok 0) ∧
    (∀ c, firstCost maxDepth rows (rows.headD []) carX (-1) = Except.ok (some c) →
      firstCost maxDepth rows (rows.headD []) carX 1 = Except.ok (some c) →
      (∀ c0, firstCost maxDepth rows (rows.headD []) carX 0
        = Except.ok (some c0) → c < c0) →
      choose_move maxDepth rows carX = Except.ok
        (if (2 * (carX + 1) - ((AIwidth : Int) - 1)).natAbs
            < (2 * (carX + -1) - ((AIwidth : Int) - 1)).natAbs then 1 else -1)) := by
  obtain ⟨row0, rest, rfl⟩ : ∃ r t, rows = r :: t := by
    cases rows with
    | nil => exact absurd rfl hne
    | cons a t => exact ⟨a, t, rfl⟩
  obtain ⟨v1, hv1⟩ := firstCost_ok hne hw hd row0 carX (-1)
  obtain ⟨v2, hv2⟩ := firstCost_ok hne hw hd row0 carX 0
  obtain ⟨v3, hv3⟩ := firstCost_ok hne hw hd row0 carX 1
  have hcm : choose_move maxDepth (row0 :: rest) carX
      = Except.ok ((stepVal carX
          (stepVal carX (stepVal carX (none, 0) (-1) v1) 0 v2) 1 v3).2) := by
    show (chooseStep carX (none, 0) (-1)
        (firstCost maxDepth (row0 :: rest) row0 carX (-1))).bind
        (fun s1 => (chooseStep carX s1 0
            (firstCost maxDepth (row0 :: rest) row0 carX 0)).bind
          fun s2 => (chooseStep carX s2 1
              (firstCost maxDepth (row0 :: rest) row0 carX 1)).bind
            fun s3 => Except.ok s3.2)
      = _
    rw [chooseStep_ok carX (none, 0) (-1) v1 _ hv1, except_bind_ok,
      chooseStep_ok carX _ 0 v2 _ hv2, except_bind_ok,
      chooseStep_ok carX _ 1 v3 _ hv3, except_bind_ok]
  simp only [List.headD_cons]
  constructor
  · intro c0 h0 hmin
    rw [hv2] at h0
    have hv2' : v2 = some c0 := Except.ok.inj h0
    subst hv2'
    have hst2 : stepVal carX (stepVal carX (none, 0) (-1) v1) 0 (some c0)
        = (some c0, 0) := by
      cases v1 with
      | none =>
        rw [show stepVal carX (none, 0) (-1) none = ((none : Option Nat), (0 : Int)) from rfl]
        rw [stepVal, if_pos (is_better_none c0 0 0 carX)]
      | some c1 =>
        have hc1 : c0 ≤ c1 := hmin (-1) (by decide) c1 hv1
        rw [show stepVal carX (none, 0) (-1) (some c1)
            = ((some c1 : Option Nat), (-1 : Int)) from by
          rw [stepVal, if_pos (is_better_none c1 (-1) 0 carX)]]
        rw [stepVal, if_pos (is_better_stay c0 c1 (-1) carX hc1 (by decide))]
    rw [hst2] at hcm
    cases v3 with
    | none => exact hcm
    | some c3 =>
      have hc3 : c0 ≤ c3 := hmin 1 (by decide) c3 hv3
      rw [show stepVal carX ((some c0 : Option Nat), (0 : Int)) 1 (some c3)
          = ((some c0 : Option Nat), (0 : Int)) from by
        rw [stepVal, if_neg (by rw [is_better_vs_stay c3 c0 1 carX (by decide) hc3]; simp)]]
        at hcm
      exact hcm
  · intro c h1 h3 hstay
    rw [hv1] at h1
    have hv1' : v1 = some c := Except.ok.inj h1
    subst hv1'
    rw [hv3] at h3
    have hv3' : v3 = some c := Except.ok.inj h3
    subst hv3'
    have hst1 : stepVal carX (none, 0) (-1) (some c) = (some c, -1) := by
      rw [stepVal, if_pos (is_better_none c (-1) 0 carX)]
    rw [hst1] at hcm
    have hst2 : stepVal carX ((some c : Option Nat), (-1 : Int)) 0 v2
        = ((some c : Option Nat), (-1 : Int)) := by
      cases v2 with
      | none => rfl
      | some c0 =>
        have hc0 : c < c0 := hstay c0 hv2
        rw [stepVal, if_neg (by rw [is_better_cost_lt c0 c 0 (-1) carX hc0]; simp)]
    rw [hst2] at hcm
    by_cases hdist : (2 * (carX + 1) - ((AIwidth : Int) - 1)).natAbs
        < (2 * (carX + -1) - ((AIwidth : Int) - 1)).natAbs
    · rw [show stepVal carX ((some c : Option Nat), (-1 : Int)) 1 (some c)
          = ((some c : Option Nat), (1 : Int)) from by
        rw [stepVal, if_pos (by rw [is_better_right_vs_left c carX]; simp [hdist])]] at hcm
      rw [if_pos hdist]
      exact hcm
    · rw [show stepVal carX ((some c : Option Nat), (-1 : Int)) 1 (some c)
          = ((some c : Option Nat), (-1 : Int)) from by
        rw [stepVal, if_neg (by rw [is_better_right_vs_left c carX]; simp [hdist])]] at hcm
      rw [if_neg hdist]
      exact hcm

/-- Witness for C5 on a concrete obstacle-free 1×10 window (depth 1). -/
theorem claim5_tiebreak_witness :
    (∀ c0, firstCost 1 [List.replicate 10 '.']
        (([List.replicate 10 '.'] : List (List Char)).headD []) 5 0 = Except.ok (some c0) →
      (∀ m ∈ ([-1, 1] : List Int), ∀ c,
        firstCost 1 [List.replicate 10 '.']
          (([List.replicate 10 '.'] : List (List Char)).headD []) 5 m
            = Except.ok (some c) → c0 ≤ c) →
      choose_move 1 [List.replicate 10 '.'] 5 = Except.ok 0) ∧
    (∀ c, firstCost 1 [List.replicate 10 '.']
        (([List.replicate 10 '.'] : List (List Char)).headD []) 5 (-1)
          = Except.ok (some c) →
      firstCost 1 [List.replicate 10 '.']
        (([List.replicate 10 '.'] : List (List Char)).headD []) 5 1 = Except.ok (some c) →
      (∀ c0, firstCost 1 [List.replicate 10 '.']
        (([List.replicate 10 '.'] : List (List Char)).headD []) 5 0
          = Except.ok (some c0) → c < c0) →
      choose_move 1 [List.replicate 10 '.'] 5 = Except.ok
        (if (2 * ((5 : Int) + 1) - ((AIwidth : Int) - 1)).natAbs
            < (2 * ((5 : Int) + -1) - ((AIwidth : Int) - 1)).natAbs then 1 else -1)) :=
  claim5_tiebreak 1 [List.replicate 10 '.'] 5 (by decide) (by decide) (by decide)

end Roadbyte
